import Mathlib

/-!
Shallow embedding of the draw.io CSV exporter in src/cdk/lib/cdk-stack.ts.

The repository contains two variants of the same stack file.  Both share the
helper classes below (variant 1) or inline the rows directly (variant 2):

  - class AwsResource: fields name, fill, stroke, shape, refs; the constructor
    sets the four style/name fields and initialises refs to the empty array
    (lines 146-152); addRef pushes a string onto refs (lines 154-156);
    toCsvLine joins refs with "," and returns
    name,fill,stroke,shape,refsString (lines 158-161).
  - class Ec2Instance extends AwsResource with the fixed style
    (#ED7100, #ffffff, mxgraph.aws4.ec2) (lines 164-168).
  - class ApplicationLoadBalancer extends AwsResource with the fixed style
    (#8C4FFF, #ffffff, mxgraph.aws4.application_load_balancer)
    (lines 170-174).
  - variant 1 builds resources = [ec2Model, albModel] with
    ec2Model.addRef(albModel.name) and renders a template literal
    (lines 104-135); variant 2 renders the same template with two hardcoded
    rows, load balancer first (lines 275-299).

Strings are modelled with Lean's String; the TypeScript template literal is
transcribed as explicit concatenation, keeping every byte of the literal
(including the newline that opens the template and the newline before the
closing backquote).
-/

/-- Fields of the TypeScript class AwsResource (cdk-stack.ts lines 139-144). -/
structure AwsResource where
  name : String
  fill : String
  stroke : String
  shape : String
  refs : List String
  deriving Repr, DecidableEq

/-- The AwsResource constructor (lines 146-152): stores the four arguments and
initialises refs to the empty array.  The source performs no validation of any
kind on name. -/
def AwsResource.make (name fill stroke shape : String) : AwsResource :=
  { name := name, fill := fill, stroke := stroke, shape := shape, refs := [] }

/-- addRef (lines 154-156): this.refs.push(ref).  Unconditional; the source has
no check that ref names an existing resource and no error path. -/
def AwsResource.addRef (r : AwsResource) (ref : String) : AwsResource :=
  { r with refs := r.refs ++ [ref] }

/-- toCsvLine (lines 158-161): refsString = this.refs.join(',') and the row is
name,fill,stroke,shape,refsString. -/
def AwsResource.toCsvLine (r : AwsResource) : String :=
  r.name ++ "," ++ r.fill ++ "," ++ r.stroke ++ "," ++ r.shape ++ "," ++
    String.intercalate "," r.refs

/-- The Ec2Instance subclass constructor (lines 164-168). -/
def Ec2Instance (name : String) : AwsResource :=
  AwsResource.make name "#ED7100" "#ffffff" "mxgraph.aws4.ec2"

/-- The ApplicationLoadBalancer subclass constructor (lines 170-174). -/
def ApplicationLoadBalancer (name : String) : AwsResource :=
  AwsResource.make name "#8C4FFF" "#ffffff" "mxgraph.aws4.application_load_balancer"

/-- The closed kind enumeration of the spec's data model; the source realises
it as the two subclasses above. -/
inductive Kind where
  | ComputeInstance
  | LoadBalancer
  deriving Repr, DecidableEq

/-- Node construction dispatched on the kind: each kind invokes the
corresponding subclass constructor from the source. -/
def mkNode : Kind → String → AwsResource
  | Kind.ComputeInstance, n => Ec2Instance n
  | Kind.LoadBalancer, n => ApplicationLoadBalancer n

/-- The spec's style table (section 6), kept separate from the source-derived
constructors so the two can be compared. -/
def styleTable : Kind → String × String × String
  | Kind.ComputeInstance => ("#ED7100", "#ffffff", "mxgraph.aws4.ec2")
  | Kind.LoadBalancer =>
      ("#8C4FFF", "#ffffff", "mxgraph.aws4.application_load_balancer")

/-- The thirteen directive lines of the template literal (lines 117-129,
identical in both variants). -/
def csvHeaderDirectives : List String :=
  [ "## Simple web server AWS diagram"
  , "# label: %component%"
  , "# style: shape=%shape%;fillColor=%fill%;strokeColor=%stroke%;verticalLabelPosition=bottom;"
  , "# namespace: csvimport-"
  , "# connect: \x7b\"from\":\"refs\", \"to\":\"component\", \"invert\":true, \"style\":\"curved=0;endArrow=block;endFill=0;dashed=1;strokeColor=#6c8ebf;\"\x7d"
  , "# width: 80"
  , "# height: 80"
  , "# ignore: refs"
  , "# nodespacing: 40"
  , "# levelspacing: 40"
  , "# edgespacing: 40"
  , "# layout: horizontaltree"
  , "## CSV data starts below this line" ]

/-- The literal column header line of the template (line 130 and line 293). -/
def csvColumnHeader : String := "component,fill,stroke,shape,refs"

/-- Everything of the template literal before the interpolated rows: the
newline that opens the literal, the directive lines, and the literal column
header line component,fill,stroke,shape,refs (lines 116-130). -/
def csvLiteralHead : String :=
  "\n" ++ String.intercalate "\n" csvHeaderDirectives ++ "\n" ++
    csvColumnHeader ++ "\n"

/-- Variant 1 renderer (lines 116-132): the header block, then
resources.map(resource to resource.toCsvLine()).join('\n'), then the closing
newline of the template literal. -/
def drawioCsv (resources : List AwsResource) : String :=
  csvLiteralHead ++
    String.intercalate "\n" (resources.map AwsResource.toCsvLine) ++ "\n"

/-- Variant 1 model build (lines 104-114): ec2Model and albModel are
constructed, ec2Model.addRef(albModel.name) records the dependency, and the
list is pushed in the order [ec2Model, albModel]. -/
def buildVariant1 (ec2Id albName : String) : List AwsResource :=
  let ec2Model := Ec2Instance ec2Id
  let albModel := ApplicationLoadBalancer albName
  let ec2Model2 := ec2Model.addRef albModel.name
  [ec2Model2, albModel]

/-- Variant 1 end to end: build the two models and render (lines 104-135). -/
def variant1Csv (ec2Id albName : String) : String :=
  drawioCsv (buildVariant1 ec2Id albName)

/-- Variant 2 renderer (lines 279-296): same header; two hardcoded rows, the
load-balancer row first, then the instance row whose refs field is ec2Refs. -/
def drawioCsv2 (albName ec2Name ec2Refs : String) : String :=
  csvLiteralHead ++
    albName ++ "," ++ "#8C4FFF" ++ "," ++ "#ffffff" ++ "," ++
      "mxgraph.aws4.application_load_balancer" ++ "," ++ "\n" ++
    ec2Name ++ "," ++ "#ED7100" ++ "," ++ "#ffffff" ++ "," ++
      "mxgraph.aws4.ec2" ++ "," ++ ec2Refs ++ "\n"

/-- Variant 2 end to end (lines 275-299): ec2Refs is set to albName, encoding
the single dependency fact that the instance references the load balancer. -/
def variant2Csv (ec2Name albName : String) : String :=
  drawioCsv2 albName ec2Name albName

/-- One builder-session operation over the source API: construct a node of a
kind (a subclass constructor call), or call addRef on the node at a given
position of the accumulated list. -/
inductive Op where
  | create (k : Kind) (name : String)
  | addRef (i : Nat) (target : String)
  deriving Repr, DecidableEq

/-- One step of a builder session: create appends the freshly constructed
node; addRef replaces the addressed node by the node with the target pushed
onto its refs, exactly as AwsResource.addRef does. -/
def step (rs : List AwsResource) : Op → List AwsResource
  | Op.create k n => rs ++ [mkNode k n]
  | Op.addRef i t =>
      match rs[i]? with
      | some r => rs.set i (r.addRef t)
      | none => rs

/-- A whole builder session starting from the empty resource list. -/
def runSession (ops : List Op) : List AwsResource :=
  ops.foldl step []

/-- The names passed to the builder, in construction order. -/
def createdNames (ops : List Op) : List String :=
  ops.filterMap fun op =>
    match op with
    | Op.create _ n => some n
    | Op.addRef _ _ => none

/-- A session is valid (the spec's notion, section 4.1) when every addRef
names a target already constructed at that point. -/
def validOps (names : List String) : List Op → Bool
  | [] => true
  | Op.create _ n :: rest => validOps (names ++ [n]) rest
  | Op.addRef _ t :: rest => decide (t ∈ names) && validOps names rest

/-- A node list with all addRef calls applied: foldl over addRef, used to
state that the style fields never change however many references a node
accumulates. -/
def applyRefs (r : AwsResource) (ts : List String) : AwsResource :=
  ts.foldl AwsResource.addRef r

/-- The node list of spec scenario A: a LoadBalancer named alb-1 with no
references, then a ComputeInstance named i-1 referencing alb-1, in
construction order. -/
def scenarioNodes : List AwsResource :=
  [ApplicationLoadBalancer "alb-1", (Ec2Instance "i-1").addRef "alb-1"]

/-- A valid demo session: construct both nodes, then reference alb-1 from the
instance at index 1. -/
def demoOps : List Op :=
  [Op.create Kind.LoadBalancer "alb-1", Op.create Kind.ComputeInstance "i-1",
   Op.addRef 1 "alb-1"]

/-- A session that calls addRef with a target name never constructed. -/
def badOps : List Op :=
  [Op.create Kind.LoadBalancer "alb-1", Op.addRef 0 "ghost"]

/-- The instance row of the output as a function of the instance identifier
and the refs field (the chunks of toCsvLine for an Ec2Instance). -/
def ec2Row (ec2Name refsStr : String) : String :=
  ec2Name ++ "," ++ "#ED7100" ++ "," ++ "#ffffff" ++ "," ++
    "mxgraph.aws4.ec2" ++ "," ++ refsStr

/-- The load-balancer row of the output as a function of the load-balancer
name (empty refs field). -/
def albRow (albName : String) : String :=
  albName ++ "," ++ "#8C4FFF" ++ "," ++ "#ffffff" ++ "," ++
    "mxgraph.aws4.application_load_balancer" ++ ","

/-- The full expected line decomposition of the rendered output: the empty
line opening the template, the directive lines, the column header line, one
line per node in order, and the empty line closing the template. -/
def csvAllLines (ns : List AwsResource) : List (List Char) :=
  [] :: (csvHeaderDirectives.map String.data ++
    ([csvColumnHeader.data] ++
      (ns.map fun r => (AwsResource.toCsvLine r).data) ++ [[]]))

set_option maxRecDepth 100000

/-! Helper lemmas shared by several developments below. -/

/-- List.intercalate of a cons, written via flatten of the separated tail. -/
theorem intercalate_cons_flatten {α : Type} (sep x : List α) (xs : List (List α)) :
    List.intercalate sep (x :: xs) = x ++ (xs.map fun t => sep ++ t).flatten := by
  induction xs generalizing x with
  | nil => simp [List.intercalate]
  | cons y ys ih =>
      simp only [List.intercalate] at ih ⊢
      simp only [List.intersperse_cons₂, List.flatten_cons, ih, List.map_cons,
        List.append_assoc]

/-- The character data of the accumulator-passing loop of String.intercalate. -/
theorem intercalate_go_data (s : String) : ∀ (as : List String) (acc : String),
    (String.intercalate.go acc s as).data =
      acc.data ++ (as.map fun t => s.data ++ t.data).flatten
  | [], acc => by simp [String.intercalate.go]
  | a :: as, acc => by
      simp only [String.intercalate.go, intercalate_go_data s as, String.data_append,
        List.map_cons, List.flatten_cons, List.append_assoc]

/-- String.intercalate agrees with List.intercalate on character data. -/
theorem data_intercalate (s : String) (ss : List String) :
    (String.intercalate s ss).data = List.intercalate s.data (ss.map String.data) := by
  cases ss with
  | nil => simp [String.intercalate, List.intercalate]
  | cons a as =>
      simp only [String.intercalate, intercalate_go_data, List.map_cons,
        intercalate_cons_flatten, List.map_map]
      rfl

/-- Setting an index of a list to the element already there leaves the list
unchanged. -/
theorem set_self_of_getElem? {α : Type} :
    ∀ (xs : List α) (i : Nat) (a : α), xs[i]? = some a → xs.set i a = xs
  | [], _, _, h => by simp at h
  | x :: xs, 0, a, h => by
      simp only [List.getElem?_cons_zero, Option.some.injEq] at h
      simp [h]
  | x :: xs, i + 1, a, h => by
      simp only [List.getElem?_cons_succ] at h
      simp [set_self_of_getElem? xs i a h]

/-- The name stored by either subclass constructor is the argument. -/
theorem mkNode_name (k : Kind) (n : String) : (mkNode k n).name = n := by
  cases k <;> rfl

/-- Either subclass constructor initialises refs to the empty list. -/
theorem mkNode_refs (k : Kind) (n : String) : (mkNode k n).refs = [] := by
  cases k <;> rfl

/-- addRef sequences never change the name or the style fields. -/
theorem applyRefs_preserves_fields : ∀ (ts : List String) (r : AwsResource),
    (applyRefs r ts).name = r.name ∧ (applyRefs r ts).fill = r.fill ∧
    (applyRefs r ts).stroke = r.stroke ∧ (applyRefs r ts).shape = r.shape
  | [], _ => ⟨rfl, rfl, rfl, rfl⟩
  | t :: ts, r => by
      have h := applyRefs_preserves_fields ts (r.addRef t)
      simpa [applyRefs, AwsResource.addRef] using h

/-- Invariant of a builder session: starting from a list whose references all
point at present names, a session that only references already-issued names
yields exactly the created names (in order) and keeps every reference
pointing at a present name. -/
theorem step_invariant : ∀ (ops : List Op) (rs : List AwsResource),
    validOps (rs.map AwsResource.name) ops = true →
    (∀ r ∈ rs, ∀ t ∈ r.refs, t ∈ rs.map AwsResource.name) →
    (ops.foldl step rs).map AwsResource.name =
        rs.map AwsResource.name ++ createdNames ops ∧
    ∀ r ∈ ops.foldl step rs, ∀ t ∈ r.refs,
        t ∈ (ops.foldl step rs).map AwsResource.name := by
  intro ops
  induction ops with
  | nil =>
      intro rs _ hinv
      exact ⟨by simp [createdNames], hinv⟩
  | cons op rest ih =>
      intro rs hv hinv
      cases op with
      | create k n =>
          have hv' : validOps ((rs ++ [mkNode k n]).map AwsResource.name) rest = true := by
            simpa [validOps, mkNode_name] using hv
          have hinv' : ∀ r ∈ rs ++ [mkNode k n], ∀ t ∈ r.refs,
              t ∈ (rs ++ [mkNode k n]).map AwsResource.name := by
            intro r hr t ht
            rcases List.mem_append.1 hr with hr | hr
            · have := hinv r hr t ht
              simp only [List.map_append]
              exact List.mem_append_left _ this
            · simp only [List.mem_singleton] at hr
              subst hr
              rw [mkNode_refs] at ht
              simp at ht
          have hrec := ih (rs ++ [mkNode k n]) hv' hinv'
          simp only [List.foldl_cons, step]
          refine ⟨?_, hrec.2⟩
          rw [hrec.1]
          simp [createdNames, mkNode_name, List.filterMap_cons]
      | addRef i t =>
          have hv1 : t ∈ rs.map AwsResource.name := by
            simp only [validOps, Bool.and_eq_true, decide_eq_true_eq] at hv
            exact hv.1
          have hv2 : validOps (rs.map AwsResource.name) rest = true := by
            simp only [validOps, Bool.and_eq_true] at hv
            exact hv.2
          cases hget : rs[i]? with
          | none =>
              have hrec := ih rs hv2 hinv
              simp only [List.foldl_cons, step, hget]
              refine ⟨?_, hrec.2⟩
              rw [hrec.1]
              simp [createdNames, List.filterMap_cons]
          | some r =>
              have hnames : (rs.set i (r.addRef t)).map AwsResource.name =
                  rs.map AwsResource.name := by
                rw [List.map_set]
                have hname : (r.addRef t).name = r.name := rfl
                rw [hname]
                apply set_self_of_getElem?
                rw [List.getElem?_map, hget]
                rfl
              have hrmem : r ∈ rs := List.getElem?_mem hget
              have hinv' : ∀ r' ∈ rs.set i (r.addRef t), ∀ u ∈ r'.refs,
                  u ∈ (rs.set i (r.addRef t)).map AwsResource.name := by
                rw [hnames]
                intro r' hr' u hu
                rcases List.mem_or_eq_of_mem_set hr' with h | h
                · exact hinv r' h u hu
                · subst h
                  simp only [AwsResource.addRef] at hu
                  rcases List.mem_append.1 hu with h | h
                  · exact hinv r hrmem u h
                  · simp only [List.mem_singleton] at h
                    subst h
                    exact hv1
              have hrec := ih (rs.set i (r.addRef t)) (by rw [hnames]; exact hv2) hinv'
              simp only [List.foldl_cons, step, hget]
              refine ⟨?_, hrec.2⟩
              rw [hrec.1, hnames]
              simp [createdNames, List.filterMap_cons]

/-- The character data of the variant 1 output for a nonempty node list is the
newline-intercalation of the expected line decomposition. -/
theorem drawioCsv_data_cons (r : AwsResource) (rest : List AwsResource) :
    (drawioCsv (r :: rest)).data = List.intercalate ['\n'] (csvAllLines (r :: rest)) := by
  have hnl : "\n".data = ['\n'] := rfl
  have hhead : csvLiteralHead.data =
      ((csvHeaderDirectives.map String.data).map fun t => '\n' :: t).flatten ++
        ('\n' :: csvColumnHeader.data) ++ ['\n'] := by rfl
  simp only [drawioCsv, csvAllLines, String.data_append, hnl, data_intercalate,
    intercalate_cons_flatten, List.map_cons, List.map_map, List.map_append,
    List.flatten_append, List.flatten_cons, List.flatten_nil, List.singleton_append,
    List.cons_append, List.append_assoc, List.append_nil, List.nil_append, hhead,
    List.map_nil, Function.comp]
  rfl

/-- C1 counterexample: the session that constructs only alb-1 and then calls
addRef with the never-constructed target ghost does not fail and does not drop
the reference: the final node list still holds exactly alb-1, and its refs
list is ["ghost"], a dangling name silently recorded.  The source's addRef
(lines 154-156) is an unconditional push with no error path, so no
UnknownTargetError can occur. -/
theorem addRef_unknown_target_recorded :
    validOps [] badOps = false ∧
    (runSession badOps).map AwsResource.name = ["alb-1"] ∧
    (runSession badOps).map AwsResource.refs = [["ghost"]] := by
  refine ⟨?_, ?_, ?_⟩ <;> decide

/-- C1 amended: addRef(node, target) always succeeds; it appends target to the
node's refs unconditionally, performing no check against constructed names and
changing no other field, so a dangling reference is silently recorded rather
than raising UnknownTargetError. -/
theorem addRef_unconditional (r : AwsResource) (t : String) :
    (r.addRef t).refs = r.refs ++ [t] ∧ (r.addRef t).name = r.name ∧
    (r.addRef t).fill = r.fill ∧ (r.addRef t).stroke = r.stroke ∧
    (r.addRef t).shape = r.shape :=
  ⟨rfl, rfl, rfl, rfl, rfl⟩

/-- C2 counterexample: constructing a node with name "a,b" (a reserved
delimiter inside) and with the empty name both succeed, yielding nodes with
those very names and empty references; the source constructor (lines 146-152)
performs no validation, so no InvalidNameError can occur. -/
theorem comma_name_constructed :
    (Ec2Instance "a,b").name = "a,b" ∧ (Ec2Instance "a,b").refs = [] ∧
    (ApplicationLoadBalancer "").name = "" ∧ (ApplicationLoadBalancer "").refs = [] :=
  ⟨rfl, rfl, rfl, rfl⟩

/-- C2 amended: for every kind and every string name, node construction is
total and never fails: the constructed node carries exactly the supplied name
(empty, comma- or newline-containing names included) and empty references. -/
theorem createNode_total (k : Kind) (name : String) :
    (mkNode k name).name = name ∧ (mkNode k name).refs = [] := by
  cases k <;> exact ⟨rfl, rfl⟩

/-- C3: building one LoadBalancer node named alb-1 with no references and one
ComputeInstance node named i-1 referencing alb-1, then rendering, yields
exactly the two expected data rows in construction order, and the whole
output is the header block followed by those two rows and the closing
newline. -/
theorem scenarioA_rows :
    scenarioNodes.map AwsResource.toCsvLine =
      ["alb-1,#8C4FFF,#ffffff,mxgraph.aws4.application_load_balancer,",
       "i-1,#ED7100,#ffffff,mxgraph.aws4.ec2,alb-1"] ∧
    drawioCsv scenarioNodes =
      csvLiteralHead ++
        "alb-1,#8C4FFF,#ffffff,mxgraph.aws4.application_load_balancer,\ni-1,#ED7100,#ffffff,mxgraph.aws4.ec2,alb-1\n" := by
  exact ⟨rfl, rfl⟩

/-- C4: for every node list the rendered output is the fixed directive block,
then the literal line component,fill,stroke,shape,refs, then the node rows in
the order supplied, joined by newlines; splitting the output on the newline
character recovers exactly one line per node, in order, with no reordering,
filtering or deduplication (stated for nonempty lists of newline-free rows,
where the line decomposition is well defined). -/
theorem drawioCsv_structure (ns : List AwsResource) (hne : ns ≠ [])
    (hrow : ∀ r ∈ ns, '\n' ∉ (AwsResource.toCsvLine r).data) :
    drawioCsv ns =
      "\n" ++ String.intercalate "\n" csvHeaderDirectives ++ "\n" ++ csvColumnHeader ++
        "\n" ++ String.intercalate "\n" (ns.map AwsResource.toCsvLine) ++ "\n" ∧
    (drawioCsv ns).data.splitOn '\n' = csvAllLines ns := by
  refine ⟨rfl, ?_⟩
  match ns, hne, hrow with
  | r :: rest, _, hrow =>
    rw [drawioCsv_data_cons]
    refine List.splitOn_intercalate _ '\n' ?_ (by simp [csvAllLines])
    intro l hl
    rcases List.mem_cons.1 hl with rfl | hl
    · simp
    rcases List.mem_append.1 hl with hl | hl
    · have hdirs : ∀ l ∈ csvHeaderDirectives.map String.data, '\n' ∉ l := by decide
      exact hdirs l hl
    rcases List.mem_append.1 hl with hl | hl
    · rcases List.mem_append.1 hl with hl | hl
      · have hl2 := List.mem_singleton.1 hl
        subst hl2
        decide
      · obtain ⟨r', hr', rfl⟩ := List.mem_map.1 hl
        exact hrow r' hr'
    · have hl2 := List.mem_singleton.1 hl
      subst hl2
      simp

/-- Witness for C4 at the scenario A node list: both hypotheses hold there
and the line decomposition is as stated. -/
theorem drawioCsv_structure_witness :
    (drawioCsv scenarioNodes).data.splitOn '\n' = csvAllLines scenarioNodes :=
  (drawioCsv_structure scenarioNodes (by decide) (by decide)).2

/-- C5: every rendered row is name,fill,stroke,shape,refs with refs the
comma-join of the node's references, unquoted and unescaped; a node with zero
references renders the refs field as the empty string, the row ending with
the single field-separator comma after the shape and nothing after it. -/
theorem toCsvLine_row_format (r : AwsResource) :
    r.toCsvLine = r.name ++ "," ++ r.fill ++ "," ++ r.stroke ++ "," ++ r.shape ++ "," ++
      String.intercalate "," r.refs ∧
    (r.refs = [] →
      r.toCsvLine = r.name ++ "," ++ r.fill ++ "," ++ r.stroke ++ "," ++ r.shape ++ ",") := by
  refine ⟨rfl, fun h => ?_⟩
  simp [AwsResource.toCsvLine, h, String.intercalate]

/-- Witness for C5 at a zero-reference node: the refs field is empty with no
trailing artifact. -/
theorem toCsvLine_row_format_witness :
    AwsResource.toCsvLine (Ec2Instance "i-1") =
      "i-1" ++ "," ++ "#ED7100" ++ "," ++ "#ffffff" ++ "," ++ "mxgraph.aws4.ec2" ++ "," :=
  (toCsvLine_row_format (Ec2Instance "i-1")).2 rfl

/-- C6: the style lookup is a pure total function on the closed kind
enumeration: whatever the name and however many references are later added,
a ComputeInstance node carries (#ED7100, #ffffff, mxgraph.aws4.ec2) and a
LoadBalancer node carries (#8C4FFF, #ffffff,
mxgraph.aws4.application_load_balancer). -/
theorem style_lookup (k : Kind) (name : String) (ts : List String) :
    ((applyRefs (mkNode k name) ts).fill, (applyRefs (mkNode k name) ts).stroke,
      (applyRefs (mkNode k name) ts).shape) = styleTable k := by
  cases k with
  | ComputeInstance =>
      obtain ⟨-, h2, h3, h4⟩ :=
        applyRefs_preserves_fields ts (mkNode Kind.ComputeInstance name)
      simp only [mkNode, Ec2Instance, AwsResource.make] at h2 h3 h4
      simp [mkNode, Ec2Instance, AwsResource.make, styleTable, h2, h3, h4]
  | LoadBalancer =>
      obtain ⟨-, h2, h3, h4⟩ :=
        applyRefs_preserves_fields ts (mkNode Kind.LoadBalancer name)
      simp only [mkNode, ApplicationLoadBalancer, AwsResource.make] at h2 h3 h4
      simp [mkNode, ApplicationLoadBalancer, AwsResource.make, styleTable, h2, h3, h4]

/-- C7: for every valid builder session (every addRef target already issued),
the component column names of the final node list are exactly the names
passed to the builder, in order, and every name in any refs list is among the
component names (no dangling references). -/
theorem roundtrip_names (ops : List Op) (h : validOps [] ops = true) :
    (runSession ops).map AwsResource.name = createdNames ops ∧
    ∀ r ∈ runSession ops, ∀ t ∈ r.refs, t ∈ (runSession ops).map AwsResource.name := by
  have hstep := step_invariant ops [] (by simpa using h) (by intro r hr; simp at hr)
  simpa [runSession] using hstep

/-- Witness for C7 at a concrete valid session of two creates and one
addRef. -/
theorem roundtrip_names_witness :
    validOps [] demoOps = true ∧
    (runSession demoOps).map AwsResource.name = ["alb-1", "i-1"] :=
  ⟨by decide, (roundtrip_names demoOps (by decide)).1⟩

/-- C8: build-then-render is deterministic.  The embedding is a pure function
of the node list, faithful to the source whose renderer only reads the node
fields and allocates a fresh string: identical inputs yield byte-identical
outputs, and rendering twice from the same node list yields two identical
strings. -/
theorem render_deterministic (ns ns' : List AwsResource) (h : ns = ns') :
    drawioCsv ns = drawioCsv ns' ∧
    [drawioCsv ns, drawioCsv ns] = [drawioCsv ns', drawioCsv ns'] := by
  subst h; exact ⟨rfl, rfl⟩

/-- Witness for C8 at the scenario A node list. -/
theorem render_deterministic_witness :
    drawioCsv scenarioNodes = drawioCsv scenarioNodes ∧
    [drawioCsv scenarioNodes, drawioCsv scenarioNodes] =
      [drawioCsv scenarioNodes, drawioCsv scenarioNodes] :=
  render_deterministic scenarioNodes scenarioNodes rfl

/-- C9 counterexample: with instance identifier i-1 and load-balancer name
alb-1 and the single dependency of the instance on the load balancer, the two
source variants produce different output strings (the class-hierarchy variant
emits the instance row first, the flat-variable variant the load-balancer row
first), so they do not produce the same CSV artifact. -/
theorem variants_differ : variant1Csv "i-1" "alb-1" ≠ variant2Csv "i-1" "alb-1" := by
  decide

/-- C9 amended: given the same identifiers and dependency fact, the two
variants emit the same header block and the same two data rows, but in
opposite order: variant 1 renders the instance row then the load-balancer
row, variant 2 the load-balancer row then the instance row. -/
theorem variants_same_rows_opposite_order (e a : String) :
    variant1Csv e a = csvLiteralHead ++ (ec2Row e a ++ ("\n" ++ (albRow a ++ "\n"))) ∧
    variant2Csv e a = csvLiteralHead ++ (albRow a ++ ("\n" ++ (ec2Row e a ++ "\n"))) := by
  constructor
  · simp [variant1Csv, drawioCsv, buildVariant1, ec2Row, albRow,
      AwsResource.toCsvLine, Ec2Instance, ApplicationLoadBalancer, AwsResource.make,
      AwsResource.addRef, String.intercalate, String.intercalate.go, String.append_assoc]
  · apply String.ext
    simp [variant2Csv, drawioCsv2, ec2Row, albRow, String.data_append, List.append_assoc]

/-- C10: in both variants the emitted CSV value begins with a newline
character (before the title directive) and ends with a newline character
(after the last data row): the template literal opens and closes on its own
lines, framing the artifact. -/
theorem csv_newline_framing (ns : List AwsResource) (a e rf : String) :
    (drawioCsv ns).data.head? = some '\n' ∧
    (drawioCsv ns).data.getLast? = some '\n' ∧
    (drawioCsv2 a e rf).data.head? = some '\n' ∧
    (drawioCsv2 a e rf).data.getLast? = some '\n' := by
  obtain ⟨tl, htl⟩ : ∃ t, csvLiteralHead.data = '\n' :: t := ⟨_, rfl⟩
  have hnl : "\n".data = ['\n'] := rfl
  refine ⟨?_, ?_, ?_, ?_⟩
  · simp [drawioCsv, String.data_append, htl]
  · rw [show (drawioCsv ns).data =
        (csvLiteralHead.data ++
          (String.intercalate "\n" (ns.map AwsResource.toCsvLine)).data) ++ ['\n'] from by
      simp [drawioCsv, String.data_append, hnl]]
    exact List.getLast?_concat _
  · simp [drawioCsv2, String.data_append, htl]
  · rw [show (drawioCsv2 a e rf).data =
        (csvLiteralHead.data ++ a.data ++ ",".data ++ "#8C4FFF".data ++ ",".data ++
          "#ffffff".data ++ ",".data ++ "mxgraph.aws4.application_load_balancer".data ++
          ",".data ++ "\n".data ++ e.data ++ ",".data ++ "#ED7100".data ++ ",".data ++
          "#ffffff".data ++ ",".data ++ "mxgraph.aws4.ec2".data ++ ",".data ++
          rf.data) ++ ['\n'] from by
      simp [drawioCsv2, String.data_append, hnl]]
    exact List.getLast?_concat _
